import Mathlib

/-!
Shallow embedding of the primary-key-aware page pruning engine
(`src/mito2/src/sst/parquet/page_prune.rs`) and proofs about it.

Byte strings are `List Nat` (each element a byte value), machine indices are
`Nat`, fallible Rust paths return `Except String _`, and paths that can panic
(`unwrap` on `None`, `todo!()`) return an `EvalOutcome` with an explicit
`panic` constructor.
-/

namespace PagePrune

/-! ## Data model: types, schema metadata (the Schema/Format Adapter) -/

/-- Scalar types of the engine's internal type system (`ConcreteDataType`).
Only the variants exercised by the sampled code paths are modelled. -/
inductive ConcreteDataType
  | String
  | Int64
  | TimestampMillisecond
  deriving DecidableEq

/-- Columnar types of the external evaluation framework (`DataType`). -/
inductive DfDataType
  | Utf8
  | Binary
  | Int64
  | Timestamp
  deriving DecidableEq

/-- `ConcreteDataType::as_arrow_type`. -/
def ConcreteDataType.as_arrow_type : ConcreteDataType → DfDataType
  | .String => .Utf8
  | .Int64 => .Int64
  | .TimestampMillisecond => .Timestamp

/-- Semantic role of a column in the region schema. -/
inductive SemanticType
  | Tag
  | Field
  | Timestamp
  deriving DecidableEq

/-- One column's metadata in the region schema. -/
structure ColumnMeta where
  column_id : Nat
  name : String
  data_type : ConcreteDataType
  semantic_type : SemanticType
  deriving DecidableEq

/-- Region metadata: ordered column list plus the ordered primary-key ids. -/
structure RegionMetadata where
  column_metadatas : List ColumnMeta
  primary_key : List Nat
  deriving DecidableEq

def RegionMetadata.column_by_id (m : RegionMetadata) (id : Nat) : Option ColumnMeta :=
  m.column_metadatas.find? (fun c => c.column_id == id)

def RegionMetadata.column_by_name (m : RegionMetadata) (n : String) : Option ColumnMeta :=
  m.column_metadatas.find? (fun c => c.name == n)

def RegionMetadata.field_columns (m : RegionMetadata) : List ColumnMeta :=
  m.column_metadatas.filter (fun c => c.semantic_type == SemanticType.Field)

def RegionMetadata.time_index_column (m : RegionMetadata) : Option ColumnMeta :=
  m.column_metadatas.find? (fun c => c.semantic_type == SemanticType.Timestamp)

/-- `ReadFormat`: the schema adapter consumed by the pruning engine.
`primary_key_position` is the physical position of the encoded key column. -/
structure ReadFormat where
  metadata : RegionMetadata
  primary_key_position : Nat
  deriving DecidableEq

/-- The first primary-key column, if any: `metadata.primary_key.get(0)`
chained through `column_by_id` as in `filter_map_physical_expr`. -/
def ReadFormat.first_primary_key (rf : ReadFormat) : Option ColumnMeta :=
  rf.metadata.primary_key.head?.bind rf.metadata.column_by_id

/-- Name of the physical encoded primary-key column
(`store_api::storage::consts::PRIMARY_KEY_COLUMN_NAME`, a constant of the
repository outside the sampled files; its value is the conventional internal
column name for the encoded key column described by the spec). -/
def PRIMARY_KEY_COLUMN_NAME : String := "__primary_key"

/-! ## Row codec

The row codec itself (`crate::row_converter`) is not among the sampled
source files; the definitions below are modelled from the spec (sections 3
and 4.1): an order-preserving, prefix-free encoding of a single field,
variable-length strings encoded in fixed groups with an explicit
length/continuation marker so that no encoding of one string is a byte
prefix of the encoding of a different string. -/

/-- Modelled from the spec: group encoding of a byte sequence. Bytes are
emitted in groups of eight; a full group followed by more data carries the
continuation marker `9`, the final group is zero-padded and carries the
count of its meaningful bytes. Order-preserving and prefix-free. -/
def encodeMcmpGroups : List Nat → List Nat
  | b0 :: b1 :: b2 :: b3 :: b4 :: b5 :: b6 :: b7 :: rest =>
      b0 :: b1 :: b2 :: b3 :: b4 :: b5 :: b6 :: b7 :: 9 :: encodeMcmpGroups rest
  | b => b ++ List.replicate (8 - b.length) 0 ++ [b.length]

/-- The string's character code sequence, the byte material fed to the
group encoder. -/
def stringBytes (s : String) : List Nat :=
  s.data.map (fun c => c.toNat)

/-- Modelled from the spec: the one-field codec's encoding of a single
string value. A leading `1` marks a present (non-null) value, followed by
the group-encoded string bytes. Encoding a string value never fails (the
source unwraps the result). -/
def encodeSingleString (s : String) : List Nat :=
  1 :: encodeMcmpGroups (stringBytes s)

/-- Modelled from the spec: inverse of `encodeMcmpGroups`. Returns the
decoded content bytes together with the unread remainder; fails on a
malformed marker or a truncated group. -/
def decodeMcmpGroups : List Nat → Except String (List Nat × List Nat)
  | b0 :: b1 :: b2 :: b3 :: b4 :: b5 :: b6 :: b7 :: marker :: rest =>
      if marker == 9 then
        match decodeMcmpGroups rest with
        | .ok (content, rem) =>
            .ok (b0 :: b1 :: b2 :: b3 :: b4 :: b5 :: b6 :: b7 :: content, rem)
        | .error e => .error e
      else if marker ≤ 8 then
        .ok (([b0, b1, b2, b3, b4, b5, b6, b7].take marker), rest)
      else
        .error "invalid group marker"
  | _ => .error "truncated group"

/-- Modelled from the spec: read eight bytes as a big-endian natural
number, returning the remainder. -/
def decodeBeBytes8 : List Nat → Except String (Nat × List Nat)
  | b0 :: b1 :: b2 :: b3 :: b4 :: b5 :: b6 :: b7 :: rest =>
      .ok ([b0, b1, b2, b3, b4, b5, b6, b7].foldl (fun acc b => acc * 256 + b) 0, rest)
  | _ => .error "truncated integer"

/-- A decoded field value. -/
inductive Value
  | Null
  | Str : String → Value
  | Int64 : Int → Value
  | Timestamp : Int → Value
  deriving DecidableEq

/-- Modelled from the spec: decode one field of the given type, returning
the value and the unread remainder. A leading `0` is a null, a leading `1`
a present value. -/
def mcmpDecodeField : ConcreteDataType → List Nat → Except String (Value × List Nat)
  | _, 0 :: rest => .ok (Value.Null, rest)
  | .String, 1 :: rest =>
      match decodeMcmpGroups rest with
      | .ok (content, rem) =>
          .ok (Value.Str (String.mk (content.map Char.ofNat)), rem)
      | .error e => .error e
  | .Int64, 1 :: rest =>
      match decodeBeBytes8 rest with
      | .ok (n, rem) => .ok (Value.Int64 ((n : Int) - 2 ^ 63), rem)
      | .error e => .error e
  | .TimestampMillisecond, 1 :: rest =>
      match decodeBeBytes8 rest with
      | .ok (n, rem) => .ok (Value.Timestamp ((n : Int) - 2 ^ 63), rem)
      | .error e => .error e
  | _, _ => .error "invalid field tag"

/-- Modelled from the spec: `McmpRowCodec::decode` for a codec configured
with the given ordered field types (whole-row decode, one value per field). -/
def mcmpDecode : List ConcreteDataType → List Nat → Except String (List Value)
  | [], _ => .ok []
  | t :: ts, bytes =>
      match mcmpDecodeField t bytes with
      | .ok (v, rem) =>
          match mcmpDecode ts rem with
          | .ok vs => .ok (v :: vs)
          | .error e => .error e
      | .error e => .error e

/-! ## Expression model

The source works over a dynamically-downcast `Arc<dyn PhysicalExpr>`; as
the spec's design notes direct, it is modelled as a closed variant type.
`other` stands for any expression kind the pruning code does not inspect
(downcasts to `BinaryExpr` or `Column` fail on it). -/

/-- `ScalarValue` of the external framework (only the variants the sampled
code handles). -/
inductive ScalarValue
  | Utf8 : Option String → ScalarValue
  | Binary : Option (List Nat) → ScalarValue
  | Int64 : Option Int → ScalarValue
  | Timestamp : Option Int → ScalarValue
  deriving DecidableEq

/-- `ScalarValue::try_from(&DataType)`: the null scalar of a columnar type.
Total here because every modelled type has a null scalar (the source
unwraps, with a comment that the key's types are never strange). -/
def ScalarValue.try_from : DfDataType → ScalarValue
  | .Utf8 => .Utf8 none
  | .Binary => .Binary none
  | .Int64 => .Int64 none
  | .Timestamp => .Timestamp none

/-- `Value::try_to_scalar_value(&ConcreteDataType)`. -/
def Value.try_to_scalar_value : Value → ConcreteDataType → Except String ScalarValue
  | .Null, t => .ok (ScalarValue.try_from t.as_arrow_type)
  | .Str s, .String => .ok (.Utf8 (some s))
  | .Int64 i, .Int64 => .ok (.Int64 (some i))
  | .Timestamp i, .TimestampMillisecond => .ok (.Timestamp (some i))
  | _, _ => .error "value type mismatch"

/-- Binary operators (`datafusion_expr::Operator`, relevant subset). -/
inductive Operator
  | Eq
  | NotEq
  | Lt
  | LtEq
  | Gt
  | GtEq
  | And
  | Or
  deriving DecidableEq

/-- A plain column reference (`Column { name, index }`). -/
structure Column where
  name : String
  index : Nat
  deriving DecidableEq

/-- Physical expression tree. -/
inductive PhysExpr
  | column : Column → PhysExpr
  | literal : ScalarValue → PhysExpr
  | binary : PhysExpr → Operator → PhysExpr → PhysExpr
  | other : Nat → PhysExpr
  deriving DecidableEq

/-- `Transformed` of the tree-node framework. -/
inductive Transformed (α : Type)
  | yes : α → Transformed α
  | no : α → Transformed α
  deriving DecidableEq

/-! ## Batch evaluation model -/

/-- One evaluated column value: a full per-row column or a single scalar. -/
inductive ColumnarValue
  | Array : List ScalarValue → ColumnarValue
  | Scalar : ScalarValue → ColumnarValue
  deriving DecidableEq

/-- A record batch: its columns in physical order. -/
structure DfRecordBatch where
  columns : List ColumnarValue
  deriving DecidableEq

/-- Outcome of evaluating an expression: success, a propagated error
(`Err(DataFusionError)`), or a panic (`unwrap` failure or `todo!()`). -/
inductive EvalOutcome (α : Type)
  | ok : α → EvalOutcome α
  | error : String → EvalOutcome α
  | panic : String → EvalOutcome α
  deriving DecidableEq

/-- `Column::evaluate`: project the batch column at this reference's index. -/
def Column.evaluate (c : Column) (batch : DfRecordBatch) : Except String ColumnarValue :=
  match batch.columns.get? c.index with
  | some v => .ok v
  | none => .error "column index out of bounds"

/-! ## DecodePrimaryKey -/

/-- The `DecodePrimaryKey` expression node. The one-field decoder is
represented by its ordered field types. -/
structure DecodePrimaryKey where
  read_format : ReadFormat
  encoded_column : Column
  required_column_name : String
  required_index : Nat
  decoder : List ConcreteDataType
  datatype : DfDataType
  concrete_datatype : ConcreteDataType
  deriving DecidableEq

/-- `DecodePrimaryKey::new`. The source unwraps the two lookups (commented
as pre-checked); `none` models that precondition violation. -/
def DecodePrimaryKey.new (rf : ReadFormat) (required_column : String) :
    Option DecodePrimaryKey := do
  let col ← rf.metadata.column_by_name required_column
  let relative_index ← rf.metadata.primary_key.findIdx? (fun id => id == col.column_id)
  pure
    { read_format := rf
      encoded_column := ⟨PRIMARY_KEY_COLUMN_NAME, rf.primary_key_position⟩
      required_column_name := col.name
      required_index := relative_index
      decoder := [col.data_type]
      datatype := col.data_type.as_arrow_type
      concrete_datatype := col.data_type }

/-- `DecodePrimaryKey::decode_one`: whole-row decode with the one-field
codec, select the field at `required_index` (the source indexes the decoded
vector directly, which panics when out of bounds), convert to a scalar. -/
def DecodePrimaryKey.decode_one (d : DecodePrimaryKey) (bytes : List Nat) :
    EvalOutcome ScalarValue :=
  match mcmpDecode d.decoder bytes with
  | .error e => .error e
  | .ok decoded =>
      match decoded.get? d.required_index with
      | none => .panic "index out of bounds"
      | some v =>
          match v.try_to_scalar_value d.concrete_datatype with
          | .ok sv => .ok sv
          | .error e => .error e

/-- `DecodePrimaryKey::nullable`: always `Ok(false)`. -/
def DecodePrimaryKey.nullable (_d : DecodePrimaryKey) (_s : List (String × DfDataType)) :
    Except String Bool :=
  .ok false

/-- `DecodePrimaryKey::data_type`. -/
def DecodePrimaryKey.data_type (d : DecodePrimaryKey) (_s : List (String × DfDataType)) :
    Except String DfDataType :=
  .ok d.datatype

/-- `DecodePrimaryKey::evaluate`. The full-column (`Array`) branch of the
source downcasts to a dictionary array with `unwrap` and then hits
`todo!()`: either way that branch panics. -/
def DecodePrimaryKey.evaluate (d : DecodePrimaryKey) (batch : DfRecordBatch) :
    EvalOutcome ColumnarValue :=
  match Column.evaluate d.encoded_column batch with
  | .error e => .error e
  | .ok encoded_col =>
      match encoded_col with
      | .Array _ => .panic "not yet implemented"
      | .Scalar (.Binary (some bytes)) =>
          match d.decode_one bytes with
          | .ok sv => .ok (.Scalar sv)
          | .error e => .error e
          | .panic p => .panic p
      | .Scalar (.Binary none) =>
          .ok (.Scalar (ScalarValue.try_from d.datatype))
      | .Scalar _ => .error "DecodePrimaryKey requires a binary column"

/-! ## Prefix Range Builder -/

/-- Helper for `get_prefix_end_key`: the source loop scans from the last
byte toward the first for a byte `< 0xFF`, truncates after it and
increments it. Recursing on the list, the deeper call answers for the
suffix; when the whole suffix is `≥ 0xFF` bytes the head byte is the
candidate. `none` means every byte is `≥ 0xFF` (or the input is empty). -/
def prefixEndAux : List Nat → Option (List Nat)
  | [] => none
  | v :: rest =>
      match prefixEndAux rest with
      | some e => some (v :: e)
      | none => if v < 0xFF then some [v + 1] else none

/-- `get_prefix_end_key`: exclusive upper bound of the byte range of all
extensions of `key`; the source substitutes `vec![0]` when no byte can be
incremented (all `0xFF`, or empty input). -/
def get_prefix_end_key (key : List Nat) : List Nat :=
  match prefixEndAux key with
  | some e => e
  | none => [0]

/-! ## Predicate Rewriter and Builder -/

/-- `PagePruningPredicateBuilder::rewrite_primary_key_eq`. Mirrors the
source exactly: it requires a `BinaryExpr` whose right operand is a
`Utf8(Some(_))` literal and then emits the byte-range conjunction; note
that the source never inspects the comparison operator. -/
def rewrite_primary_key_eq (rf : ReadFormat) (outermost : PhysExpr) :
    Transformed PhysExpr :=
  match outermost with
  | .binary _l _op r =>
      match r with
      | .literal (ScalarValue.Utf8 (some lit)) =>
          let lower_bound := encodeSingleString lit
          let upper_bound := get_prefix_end_key lower_bound
          let pk_col : PhysExpr := .column ⟨PRIMARY_KEY_COLUMN_NAME, rf.primary_key_position⟩
          .yes (.binary
            (.binary pk_col .GtEq (.literal (.Binary (some lower_bound))))
            .And
            (.binary pk_col .Lt (.literal (.Binary (some upper_bound)))))
      | _ => .no outermost
  | _ => .no outermost

/-- The valid reference set gathered by `filter_map_physical_expr`
(field columns, the first primary-key column, the time index column).
The live code computes it but never reads it; kept for fidelity. -/
def valid_set (rf : ReadFormat) : List String :=
  (rf.metadata.field_columns ++ rf.first_primary_key.toList
      ++ rf.metadata.time_index_column.toList).map (fun c => c.name)

/-- The per-expression body of `filter_map_physical_expr`'s `filter_map`
closure: keep non-binary expressions and binary expressions whose left
operand is not a column reference or names a column other than the first
primary-key column; for a binary comparison on the first primary-key
column, keep the rewrite when it fires and drop the expression otherwise. -/
def filterMapOne (rf : ReadFormat) (e : PhysExpr) : Option PhysExpr :=
  let first_primary_key := rf.first_primary_key
  match e with
  | .binary l _op _r =>
      match l with
      | .column col =>
          match first_primary_key with
          | some first_pk =>
              if first_pk.name == col.name then
                match rewrite_primary_key_eq rf e with
                | .yes e2 => some e2
                | .no _ => none
              else some e
          | none => some e
      | _ => some e
  | _ => some e

/-- `PagePruningPredicateBuilder::filter_map_physical_expr`. -/
def filter_map_physical_expr (predicate : List PhysExpr) (rf : ReadFormat) :
    List PhysExpr :=
  predicate.filterMap (filterMapOne rf)

/-- `PagePruningPredicateBuilder::conjoin_exprs`: pop the last expression
and left-fold the rest onto it with `AND`. `none` models the `unwrap`
panic on an empty input, which the caller excludes. -/
def conjoin_exprs (exprs : List PhysExpr) : Option PhysExpr :=
  match exprs.getLast? with
  | none => none
  | some first_expr =>
      some (exprs.dropLast.foldl (fun acc e => .binary acc .And e) first_expr)

/-- `PagePruningPredicateBuilder::build`, parameterized by the external
evaluator's fallible constructor (`PagePruningPredicate::try_new`, whose
error is discarded by `.ok()`). -/
def build {P : Type} (predicate : List PhysExpr) (read_format : ReadFormat)
    (file_schema : List (String × DfDataType))
    (try_new : PhysExpr → List (String × DfDataType) → Except String P) : Option P :=
  let page_filter_exprs := filter_map_physical_expr predicate read_format
  if page_filter_exprs.isEmpty then none
  else
    match conjoin_exprs page_filter_exprs with
    | none => none
    | some conjoined => (try_new conjoined file_schema).toOption

/-! ## Unsigned lexicographic byte comparison -/

/-- Strict lexicographic order on byte strings under unsigned byte
comparison: a proper initial segment is smaller. -/
def bytesLt : List Nat → List Nat → Bool
  | [], [] => false
  | [], _ :: _ => true
  | _ :: _, [] => false
  | a :: as, b :: bs => a < b || (a == b && bytesLt as bs)

/-- Non-strict lexicographic order. -/
def bytesLe (x y : List Nat) : Bool :=
  bytesLt x y || x == y

/-! ## Shape predicates over candidate expressions -/

/-- The candidate shape that routes into `rewrite_primary_key_eq`: a binary
comparison whose left operand is a column reference naming the first
primary-key column. -/
def isFirstPkComparison (rf : ReadFormat) (e : PhysExpr) : Bool :=
  match e, rf.first_primary_key with
  | .binary (.column c) _ _, some pk => pk.name == c.name
  | _, _ => false

/-- The shapes `filter_map_physical_expr` keeps unchanged: not a binary
comparison, or a left operand that is not a plain column reference, or a
left-operand column whose name differs from the first primary-key
column's. -/
def keptUnchangedShape (rf : ReadFormat) (e : PhysExpr) : Bool :=
  match e, rf.first_primary_key with
  | .binary (.column c) _ _, some pk => !(pk.name == c.name)
  | .binary (.column _) _ _, none => true
  | .binary l _ _, _ =>
      match l with
      | .column _ => false
      | _ => true
  | _, _ => true

/-! ## Concrete fixtures

A region with primary key `[region]` (a string tag), an integer field
`cpu_usage` and a time index `ts`; the encoded key column sits at physical
position 3. -/

def rf0 : ReadFormat :=
  { metadata :=
      { column_metadatas :=
          [ ⟨0, "region", ConcreteDataType.String, SemanticType.Tag⟩,
            ⟨1, "cpu_usage", ConcreteDataType.Int64, SemanticType.Field⟩,
            ⟨2, "ts", ConcreteDataType.TimestampMillisecond, SemanticType.Timestamp⟩ ]
        primary_key := [0] }
    primary_key_position := 3 }

/-- A file schema handed to the external constructor in the examples. -/
def demoSchema : List (String × DfDataType) :=
  [("cpu_usage", DfDataType.Int64), ("ts", DfDataType.Timestamp),
   ("__primary_key", DfDataType.Binary)]

/-- `region != "us-east"` — the spec's concrete must-be-dropped scenario. -/
def regionNeq : PhysExpr :=
  .binary (.column ⟨"region", 0⟩) .NotEq (.literal (.Utf8 (some "us-east")))

/-- `region = 5` — an equality on the first primary-key column with a
non-string literal. -/
def regionEqInt : PhysExpr :=
  .binary (.column ⟨"region", 0⟩) .Eq (.literal (.Int64 (some 5)))

/-- `cpu_usage > 5` — a plain field-column predicate. -/
def cpuGt : PhysExpr :=
  .binary (.column ⟨"cpu_usage", 1⟩) .Gt (.literal (.Int64 (some 5)))

/-- A `DecodePrimaryKey` node for `region` over `rf0`. -/
def dpk0 : DecodePrimaryKey :=
  { read_format := rf0
    encoded_column := ⟨PRIMARY_KEY_COLUMN_NAME, 0⟩
    required_column_name := "region"
    required_index := 0
    decoder := [ConcreteDataType.String]
    datatype := DfDataType.Utf8
    concrete_datatype := ConcreteDataType.String }

/-- A batch whose only column is a full array of binary values. -/
def arrayBatch : DfRecordBatch :=
  ⟨[ColumnarValue.Array
      [ScalarValue.Binary (some (encodeSingleString "us-east")),
       ScalarValue.Binary none]]⟩

/-- A batch whose only column is a scalar binary null. -/
def nullScalarBatch : DfRecordBatch :=
  ⟨[ColumnarValue.Scalar (ScalarValue.Binary none)]⟩

/-! ## Lemmas about the prefix range builder and byte order -/

theorem bytesLt_append_cons : ∀ (p : List Nat) (c : Nat) (r : List Nat),
    bytesLt p (p ++ c :: r) = true
  | [], _, _ => rfl
  | a :: as, c, r => by
      simp [bytesLt, bytesLt_append_cons as c r]

theorem bytesLe_append (p r : List Nat) : bytesLe p (p ++ r) = true := by
  cases r with
  | nil => simp [bytesLe]
  | cons c r' => simp [bytesLe, bytesLt_append_cons]

/-- `prefixEndAux` returns `none` exactly on inputs with no byte below
`0xFF` (in particular on the empty input). -/
theorem prefixEndAux_none : ∀ p : List Nat, prefixEndAux p = none →
    ∀ v ∈ p, 0xFF ≤ v := by
  intro p
  induction p with
  | nil => intro _ v hv; cases hv
  | cons a as ih =>
      intro h v hv
      cases hr : prefixEndAux as with
      | some e => simp [prefixEndAux, hr] at h
      | none =>
          simp [prefixEndAux, hr] at h
          rcases List.mem_cons.mp hv with hva | hva
          · subst hva
            omega
          · exact ih hr v hva

/-- Any extension of `p` is lexicographically below the incremented prefix
computed by `prefixEndAux`. -/
theorem prefixEndAux_lt : ∀ (p e : List Nat), prefixEndAux p = some e →
    ∀ r : List Nat, bytesLt (p ++ r) e = true := by
  intro p
  induction p with
  | nil => intro e h; simp [prefixEndAux] at h
  | cons a as ih =>
      intro e h r
      cases hr : prefixEndAux as with
      | some e' =>
          simp [prefixEndAux, hr] at h
          subst h
          simp [bytesLt, ih e' hr r]
      | none =>
          simp [prefixEndAux, hr] at h
          by_cases ha : a < 0xFF
          · simp [ha] at h
            subst h
            simp [bytesLt]
          · simp [ha] at h

/-- A byte below `0xFF` somewhere in `p` guarantees a finite prefix end. -/
theorem prefixEndAux_isSome (p : List Nat) (h : ∃ v ∈ p, v < 0xFF) :
    ∃ e, prefixEndAux p = some e := by
  cases he : prefixEndAux p with
  | some e => exact ⟨e, rfl⟩
  | none =>
      rcases h with ⟨v, hv, hlt⟩
      have := prefixEndAux_none p he v hv
      omega

/-! ## Lemmas about the rewriter -/

/-- Whenever `rewrite_primary_key_eq` fires, the produced expression is an
`AND` whose left operand is itself a binary expression (never a plain
column reference). -/
theorem rewrite_yes_left_binary (rf : ReadFormat) (e e2 : PhysExpr)
    (h : rewrite_primary_key_eq rf e = Transformed.yes e2) :
    ∃ l1 o1 r1 r2, e2 = PhysExpr.binary (PhysExpr.binary l1 o1 r1) Operator.And r2 := by
  cases e with
  | binary l op r =>
      cases r with
      | literal sv =>
          cases sv with
          | Utf8 os =>
              cases os with
              | some s =>
                  simp [rewrite_primary_key_eq] at h
                  exact ⟨_, _, _, _, h.symm⟩
              | none => simp [rewrite_primary_key_eq] at h
          | Binary ob => simp [rewrite_primary_key_eq] at h
          | Int64 oi => simp [rewrite_primary_key_eq] at h
          | Timestamp ot => simp [rewrite_primary_key_eq] at h
      | column c => simp [rewrite_primary_key_eq] at h
      | binary l2 o2 r2 => simp [rewrite_primary_key_eq] at h
      | other n => simp [rewrite_primary_key_eq] at h
  | column c => simp [rewrite_primary_key_eq] at h
  | literal sv => simp [rewrite_primary_key_eq] at h
  | other n => simp [rewrite_primary_key_eq] at h

/-- Everything `filterMapOne` outputs is a fixed point of `filterMapOne`. -/
theorem filterMapOne_stable (rf : ReadFormat) :
    ∀ e e2, filterMapOne rf e = some e2 → filterMapOne rf e2 = some e2 := by
  intro e e2 h
  cases e with
  | column c =>
      simp [filterMapOne] at h
      subst h
      simp [filterMapOne]
  | literal sv =>
      simp [filterMapOne] at h
      subst h
      simp [filterMapOne]
  | other n =>
      simp [filterMapOne] at h
      subst h
      simp [filterMapOne]
  | binary l op r =>
      cases l with
      | column c =>
          cases hfpk : rf.first_primary_key with
          | none =>
              simp [filterMapOne, hfpk] at h
              subst h
              simp [filterMapOne, hfpk]
          | some pk =>
              cases hn : (pk.name == c.name) with
              | false =>
                  simp [filterMapOne, hfpk, hn] at h
                  subst h
                  simp [filterMapOne, hfpk, hn]
              | true =>
                  cases hrw : rewrite_primary_key_eq rf (.binary (.column c) op r) with
                  | yes ey =>
                      simp [filterMapOne, hfpk, hn, hrw] at h
                      subst e2
                      obtain ⟨l1, o1, r1, r2, hshape⟩ :=
                        rewrite_yes_left_binary rf (.binary (.column c) op r) ey hrw
                      rw [hshape]
                      simp [filterMapOne]
                  | no en =>
                      simp [filterMapOne, hfpk, hn, hrw] at h
      | literal sv =>
          simp [filterMapOne] at h
          subst h
          simp [filterMapOne]
      | binary l2 o2 r2 =>
          simp [filterMapOne] at h
          subst h
          simp [filterMapOne]
      | other n =>
          simp [filterMapOne] at h
          subst h
          simp [filterMapOne]

/-- Filtering with a function whose outputs are fixed points is
idempotent. -/
theorem filterMap_stable {α : Type} (f : α → Option α)
    (hf : ∀ a b, f a = some b → f b = some b) :
    ∀ l : List α, (l.filterMap f).filterMap f = l.filterMap f := by
  intro l
  induction l with
  | nil => rfl
  | cons a l ih =>
      cases h : f a with
      | none => simp [List.filterMap_cons, h, ih]
      | some b => simp [List.filterMap_cons, h, hf a b h, ih]

/-! ## Claims -/

/-- C1: the claim says a comparison on the first primary-key column with an
operator other than `=` (such as `!=`) is not recognized and is dropped
from the pruning set. The code does not inspect the operator at all:
`region != "us-east"` (the spec's own concrete must-be-dropped scenario)
is rewritten into the equality byte-range conjunction instead of being
dropped, so the claim fails on the code. This theorem evaluates the filter
at that failing input. -/
theorem c1_neq_is_rewritten_not_dropped :
    filter_map_physical_expr [regionNeq] rf0 =
      [PhysExpr.binary
        (.binary (.column ⟨PRIMARY_KEY_COLUMN_NAME, 3⟩) .GtEq
          (.literal (.Binary (some (encodeSingleString "us-east")))))
        .And
        (.binary (.column ⟨PRIMARY_KEY_COLUMN_NAME, 3⟩) .Lt
          (.literal (.Binary (some (get_prefix_end_key (encodeSingleString "us-east"))))))] ∧
    filter_map_physical_expr [regionNeq] rf0 ≠ [] := by
  refine ⟨rfl, ?_⟩
  decide

/-- C2: the claim says `prefix_end` on an empty or all-`0xFF` input yields
no finite exclusive upper bound (not a sentinel such as `[0x00]`) and the
rewrite path drops such a predicate. The code instead substitutes the
sentinel `vec![0]`, and the rewrite path consumes the result
unconditionally. This theorem evaluates the code at the failing inputs,
and shows the sentinel is a wrong bound: an extension of the all-`0xFF`
prefix is not below it. -/
theorem c2_prefix_end_substitutes_sentinel :
    get_prefix_end_key [] = [0] ∧
    get_prefix_end_key [0xFF, 0xFF] = [0] ∧
    bytesLt [0xFF, 0xFF, 0x01] [0] = false := by
  decide

/-- C3: for every non-empty byte string `p` containing a byte below `0xFF`
and every `q` having `p` as a prefix, `p <= q < prefix_end(p)` under
unsigned lexicographic comparison; concretely
`prefix_end([0x01, 0xFF, 0xFF]) = [0x02]`. -/
theorem c3_prefix_end_bounds (p q : List Nat) (_hne : p ≠ [])
    (hbyte : ∃ v ∈ p, v < 0xFF) (hq : ∃ r, q = p ++ r) :
    bytesLe p q = true ∧ bytesLt q (get_prefix_end_key p) = true ∧
    get_prefix_end_key [0x01, 0xFF, 0xFF] = [0x02] := by
  obtain ⟨r, rfl⟩ := hq
  obtain ⟨e, he⟩ := prefixEndAux_isSome p hbyte
  refine ⟨bytesLe_append p r, ?_, by decide⟩
  simpa [get_prefix_end_key, he] using prefixEndAux_lt p e he r

theorem c3_prefix_end_bounds_witness :
    bytesLe [1] [1, 2] = true ∧ bytesLt [1, 2] (get_prefix_end_key [1]) = true ∧
    get_prefix_end_key [0x01, 0xFF, 0xFF] = [0x02] :=
  c3_prefix_end_bounds [1] [1, 2] (by decide) ⟨1, by decide, by decide⟩ ⟨[2], rfl⟩

/-- C4: a predicate `first_pk_column = <string literal v>` is rewritten to
exactly `(encoded_key_column >= lower) AND (encoded_key_column < upper)`
with `lower` the one-field encoding of `v`, `upper = prefix_end(lower)`,
and `encoded_key_column` a fresh column reference at the encoded-key
column's physical position. (The code builds the codec for the string
type; the hypothesis that the first primary-key column is string-typed
makes that the codec matching the column's type, as the claim states.) -/
theorem c4_replacement_shape (rf : ReadFormat) (pk : ColumnMeta) (c : Column)
    (v : String) (hpk : rf.first_primary_key = some pk)
    (hname : pk.name = c.name) (_hty : pk.data_type = ConcreteDataType.String) :
    filterMapOne rf (.binary (.column c) .Eq (.literal (.Utf8 (some v)))) =
      some (.binary
        (.binary (.column ⟨PRIMARY_KEY_COLUMN_NAME, rf.primary_key_position⟩) .GtEq
          (.literal (.Binary (some (encodeSingleString v)))))
        .And
        (.binary (.column ⟨PRIMARY_KEY_COLUMN_NAME, rf.primary_key_position⟩) .Lt
          (.literal (.Binary (some (get_prefix_end_key (encodeSingleString v))))))) := by
  simp [filterMapOne, hpk, hname, rewrite_primary_key_eq]

theorem c4_replacement_shape_witness :
    filterMapOne rf0 (.binary (.column ⟨"region", 0⟩) .Eq (.literal (.Utf8 (some "us-east")))) =
      some (.binary
        (.binary (.column ⟨PRIMARY_KEY_COLUMN_NAME, 3⟩) .GtEq
          (.literal (.Binary (some (encodeSingleString "us-east")))))
        .And
        (.binary (.column ⟨PRIMARY_KEY_COLUMN_NAME, 3⟩) .Lt
          (.literal (.Binary (some (get_prefix_end_key (encodeSingleString "us-east"))))))) :=
  c4_replacement_shape rf0 ⟨0, "region", ConcreteDataType.String, SemanticType.Tag⟩
    ⟨"region", 0⟩ "us-east" rfl rfl rfl

/-- C5: a binary comparison on the first primary-key column whose rewrite
does not fire is dropped entirely: the per-expression filter yields
nothing for it, and the output for `e :: ps` is the output for `ps` — a
normal control path, not an error. -/
theorem c5_unrecognized_dropped (rf : ReadFormat) (e : PhysExpr)
    (hcand : isFirstPkComparison rf e = true)
    (hno : rewrite_primary_key_eq rf e = Transformed.no e) :
    filterMapOne rf e = none ∧
    ∀ ps : List PhysExpr,
      filter_map_physical_expr (e :: ps) rf = filter_map_physical_expr ps rf := by
  have h1 : filterMapOne rf e = none := by
    cases e with
    | binary l op r =>
        cases l with
        | column c =>
            cases hfpk : rf.first_primary_key with
            | none => simp [isFirstPkComparison, hfpk] at hcand
            | some pk =>
                have hn : pk.name = c.name := by
                  simpa [isFirstPkComparison, hfpk] using hcand
                simp [filterMapOne, hfpk, hn, hno]
        | literal sv => simp [isFirstPkComparison] at hcand
        | binary a b c2 => simp [isFirstPkComparison] at hcand
        | other n => simp [isFirstPkComparison] at hcand
    | column c => simp [isFirstPkComparison] at hcand
    | literal sv => simp [isFirstPkComparison] at hcand
    | other n => simp [isFirstPkComparison] at hcand
  exact ⟨h1, fun ps => by simp [filter_map_physical_expr, List.filterMap_cons, h1]⟩

theorem c5_unrecognized_dropped_witness :
    filterMapOne rf0 regionEqInt = none ∧
    filter_map_physical_expr [regionEqInt] rf0 = filter_map_physical_expr [] rf0 := by
  have h := c5_unrecognized_dropped rf0 regionEqInt (by decide) (by decide)
  exact ⟨h.1, h.2 []⟩

/-- C6: a candidate that is not a binary comparison, or whose left operand
is not a plain column reference, or whose left-operand column name differs
from the first primary-key column's name, passes through the rewriter
unchanged: the per-expression filter returns it as is, and it is a member
of the output of any candidate set containing it. -/
theorem c6_kept_unchanged (rf : ReadFormat) (e : PhysExpr)
    (h : keptUnchangedShape rf e = true) :
    filterMapOne rf e = some e ∧
    ∀ ps : List PhysExpr, e ∈ ps → e ∈ filter_map_physical_expr ps rf := by
  have h1 : filterMapOne rf e = some e := by
    cases e with
    | binary l op r =>
        cases l with
        | column c =>
            cases hfpk : rf.first_primary_key with
            | none => simp [filterMapOne, hfpk]
            | some pk =>
                have hn : ¬pk.name = c.name := by
                  simpa [keptUnchangedShape, hfpk] using h
                simp [filterMapOne, hfpk, hn]
        | literal sv => simp [filterMapOne]
        | binary a b c2 => simp [filterMapOne]
        | other n => simp [filterMapOne]
    | column c => simp [filterMapOne]
    | literal sv => simp [filterMapOne]
    | other n => simp [filterMapOne]
  refine ⟨h1, fun ps hmem => ?_⟩
  simp only [filter_map_physical_expr, List.mem_filterMap]
  exact ⟨e, hmem, h1⟩

theorem c6_kept_unchanged_witness :
    filterMapOne rf0 cpuGt = some cpuGt ∧
    cpuGt ∈ filter_map_physical_expr [regionNeq, cpuGt] rf0 := by
  have h := c6_kept_unchanged rf0 cpuGt (by decide)
  exact ⟨h.1, h.2 [regionNeq, cpuGt] (by decide)⟩

/-- C7: `build` returns `none` when the filtered set is empty, returns
`none` (rather than an error) when the external constructor rejects the
conjoined expression, and otherwise hands the `AND`-conjunction of the
survivors plus the physical file schema to the external constructor and
returns its result. -/
theorem c7_build_degrades {P : Type} (ps : List PhysExpr) (rf : ReadFormat)
    (fs : List (String × DfDataType))
    (try_new : PhysExpr → List (String × DfDataType) → Except String P) :
    (filter_map_physical_expr ps rf = [] → build ps rf fs try_new = none) ∧
    (∀ conjoined err, conjoin_exprs (filter_map_physical_expr ps rf) = some conjoined →
        try_new conjoined fs = Except.error err → build ps rf fs try_new = none) ∧
    (∀ conjoined p, conjoin_exprs (filter_map_physical_expr ps rf) = some conjoined →
        try_new conjoined fs = Except.ok p → build ps rf fs try_new = some p) := by
  refine ⟨?_, ?_, ?_⟩
  · intro h
    simp [build, h]
  · intro conjoined err hconj htn
    cases hl : filter_map_physical_expr ps rf with
    | nil => rw [hl] at hconj; simp [conjoin_exprs] at hconj
    | cons a l =>
        rw [hl] at hconj
        simp [build, hl, hconj, htn, Except.toOption]
  · intro conjoined p hconj htn
    cases hl : filter_map_physical_expr ps rf with
    | nil => rw [hl] at hconj; simp [conjoin_exprs] at hconj
    | cons a l =>
        rw [hl] at hconj
        simp [build, hl, hconj, htn, Except.toOption]

/-- A demonstration external constructor that accepts every expression. -/
def demoTryNew : PhysExpr → List (String × DfDataType) → Except String PhysExpr :=
  fun e _ => Except.ok e

theorem c7_build_degrades_witness :
    build ([] : List PhysExpr) rf0 demoSchema demoTryNew = none ∧
    build [cpuGt] rf0 demoSchema demoTryNew = some cpuGt :=
  ⟨(c7_build_degrades [] rf0 demoSchema demoTryNew).1 rfl,
   (c7_build_degrades [cpuGt] rf0 demoSchema demoTryNew).2.2 cpuGt cpuGt rfl rfl⟩

/-- C8: the claim says that on a batch whose encoded-key child evaluates to
a full column of binary values, `evaluate` decodes every row independently
and neither errors nor panics. The source's array branch is a dictionary
downcast `unwrap` followed by `todo!()` — it panics. This theorem
evaluates the code at such a failing input. -/
theorem c8_array_input_panics :
    DecodePrimaryKey.evaluate dpk0 arrayBatch =
      EvalOutcome.panic "not yet implemented" := by
  rfl

/-- C9: the eligibility filter is idempotent: applying
`filter_map_physical_expr` to its own output yields the same expression
set as applying it once. -/
theorem c9_filter_idempotent (rf : ReadFormat) (ps : List PhysExpr) :
    filter_map_physical_expr (filter_map_physical_expr ps rf) rf =
      filter_map_physical_expr ps rf :=
  filterMap_stable (filterMapOne rf) (filterMapOne_stable rf) ps

/-- C10: `nullable` returns `Ok(false)` for every input schema, even
though `evaluate` returns the null scalar of the output type whenever the
encoded-key child evaluates to a scalar binary null. -/
theorem c10_nullable_false_yet_null_output (d : DecodePrimaryKey)
    (s : List (String × DfDataType)) (batch : DfRecordBatch)
    (h : Column.evaluate d.encoded_column batch =
      Except.ok (ColumnarValue.Scalar (ScalarValue.Binary none))) :
    d.nullable s = Except.ok false ∧
    d.evaluate batch = EvalOutcome.ok (ColumnarValue.Scalar (ScalarValue.try_from d.datatype)) := by
  refine ⟨rfl, ?_⟩
  simp [DecodePrimaryKey.evaluate, h]

theorem c10_nullable_false_yet_null_output_witness :
    DecodePrimaryKey.nullable dpk0 demoSchema = Except.ok false ∧
    DecodePrimaryKey.evaluate dpk0 nullScalarBatch =
      EvalOutcome.ok (ColumnarValue.Scalar (ScalarValue.Utf8 none)) :=
  c10_nullable_false_yet_null_output dpk0 demoSchema nullScalarBatch rfl

end PagePrune
